import Mathlib

/-!
Verification of the core of `ccth` (Claude Code session events → Slack thread
notifier) against its natural-language specification.

The TypeScript sources are embedded shallowly:

* JS strings are Lean `String`s; JS `s.length` / `s.substring(0, n)` are
  modelled on the underlying character list (`jsLength` / `jsSubstring`).
  (JS counts UTF-16 code units; for the code points involved the two agree.)
* The session store (`~/.ccth` directory) is an association list from file
  name to file content; a file body is either a parseable `SessionData`
  record or corrupt bytes.
* Network effects of `client.chat.postMessage` are passed in explicitly as a
  `PostResult` (thread creation) or a `postOk` oracle (per-message success),
  and each function returns the number / list of post calls it performed.
* `hashMessage` (SHA-256 over the JSON-serialized transcript turn) is
  modelled as the turn itself: the hash is collision-free on serialized
  values and serialization is injective, so a set of hashes is in bijection
  with a set of turns.
-/

namespace Ccth

/-! ## JS string primitives -/

/-- JS `s.length` (number of characters of the string). -/
def jsLength (s : String) : Nat := s.data.length

/-- JS `s.substring(0, n)`. -/
def jsSubstring (s : String) (n : Nat) : String := ⟨s.data.take n⟩

/-- JS `s.trim()` (strip whitespace from both ends). -/
def jsTrim (s : String) : String :=
  ⟨((s.data.dropWhile Char.isWhitespace).reverse.dropWhile Char.isWhitespace).reverse⟩

/-- JS `s.endsWith(pat)`. -/
def jsEndsWith (s pat : String) : Bool :=
  decide (pat.data.length ≤ s.data.length) &&
    decide (s.data.drop (s.data.length - pat.data.length) = pat.data)

/-- Prefix test on character lists, used by `jsIncludes`. -/
def listStartsWith (l pat : List Char) : Bool := decide (pat = l.take pat.length)

/-- Substring search on character lists. -/
def listHasSub : List Char → List Char → Bool
  | [], pat => decide (pat = [])
  | c :: rest, pat => listStartsWith (c :: rest) pat || listHasSub rest pat

/-- JS `s.includes(pat)`. -/
def jsIncludes (s pat : String) : Bool := listHasSub s.data pat.data

/-- `true` when the character list contains two consecutive dots, i.e. a
`".."` substring. Used to state the path-safety claim. -/
def hasDotDot : List Char → Bool
  | [] => false
  | [_] => false
  | a :: b :: rest => (a == '.' && b == '.') || hasDotDot (b :: rest)

/-! ## file-storage.ts: sanitization and session records -/

/-- Characters kept by the sanitizer: the JS regex class `[a-zA-Z0-9-_]`
(`src/utils/file-storage.ts`, `sanitizeSessionId`). -/
def allowedChar (c : Char) : Bool :=
  ('a' ≤ c && c ≤ 'z') || ('A' ≤ c && c ≤ 'Z') || ('0' ≤ c && c ≤ '9') || c == '-' || c == '_'

/-- `sessionId.replace(/[^a-zA-Z0-9-_]/g, "_")`
(`src/utils/file-storage.ts`, `sanitizeSessionId`). -/
def sanitizeSessionId (s : String) : String :=
  ⟨s.data.map fun c => if allowedChar c then c else '_'⟩

/-- The file name part of `getSessionFilePath`: `` `${sanitizeSessionId(sessionId)}.json` ``. -/
def sessionFileName (sessionId : String) : String := sanitizeSessionId sessionId ++ ".json"

/-- `join(storageDir, `...`)` (`src/utils/file-storage.ts`, `getSessionFilePath`). -/
def getSessionFilePath (storageDir sessionId : String) : String :=
  storageDir ++ "/" ++ sessionFileName sessionId

/-- `SessionData` (`src/utils/file-storage.ts`). `lastActivity` is
epoch milliseconds. -/
structure SessionData where
  threadTs : String
  lastActivity : Nat
  channel : String
  sessionId : String
deriving DecidableEq, Repr

/-- Content of a stored session file: a parseable `SessionData` record, or
bytes that exist but fail to read/JSON-parse (any error other than ENOENT). -/
inductive FileContent where
  | valid (d : SessionData)
  | corrupt
deriving DecidableEq, Repr

/-- The storage directory: file name → file content. A missing key is ENOENT. -/
def Store := List (String × FileContent)

/-- Read a file from the store (first matching name). -/
def storeLookup : Store → String → Option FileContent
  | [], _ => none
  | (k, v) :: rest, key => if k = key then some v else storeLookup rest key

/-- `fs.writeFile`: create or overwrite a file. -/
def storeInsert : Store → String → FileContent → Store
  | [], key, v => [(key, v)]
  | (k, w) :: rest, key, v =>
    if k = key then (key, v) :: rest else (k, w) :: storeInsert rest key v

/-- `loadSession` (`src/utils/file-storage.ts`): read the session file; on
ENOENT return null; on any other failure (unreadable file, invalid JSON) log
and also return null. -/
def loadSession (store : Store) (sessionId : String) : Option SessionData :=
  match storeLookup store (sessionFileName sessionId) with
  | none => none
  | some .corrupt => none
  | some (.valid d) => some d

/-- `saveSession` (`src/utils/file-storage.ts`): serialize the record and
write it to the session file. -/
def saveSession (store : Store) (sessionId : String) (data : SessionData) : Store :=
  storeInsert store (sessionFileName sessionId) (.valid data)

/-! ## thread-manager.ts: getOrCreateThread -/

/-- Outcome of the one `chat.postMessage` call that creates a thread:
success carries `result.ts` (which the Slack API may omit), failure models a
thrown error. -/
inductive PostResult where
  | ok (ts : Option String)
  | failed
deriving DecidableEq, Repr

/-- Result of `getOrCreateThread`: the returned thread timestamp or the
thrown error message, the store after the call, and how many
thread-creating `chat.postMessage` calls were made. -/
structure ThreadResolution where
  outcome : Except String String
  store : Store
  postCalls : Nat

/-- `getOrCreateThread` (`src/slack/thread-manager.ts`): load the session
record; if present, bump `lastActivity` to now, save, and return the stored
`threadTs` without any network call. Otherwise post the introductory message
(modelled by `post`), persist a new record carrying the returned `ts`, and
return it; a missing `ts` or a post failure throws without saving. -/
def getOrCreateThread (sessionId : String) (hasClient : Bool) (channel : String)
    (now : Nat) (post : PostResult) (store : Store) : ThreadResolution :=
  match loadSession store sessionId with
  | some existingSession =>
    let updatedSession : SessionData := { existingSession with lastActivity := now }
    ⟨.ok existingSession.threadTs, saveSession store sessionId updatedSession, 0⟩
  | none =>
    if ¬hasClient then ⟨.error "Slack client not initialized", store, 0⟩
    else
      match post with
      | .failed => ⟨.error "Failed to create thread", store, 1⟩
      | .ok none => ⟨.error "Failed to create thread - no timestamp returned", store, 1⟩
      | .ok (some ts) =>
        let sessionData : SessionData := ⟨ts, now, channel, sessionId⟩
        ⟨.ok ts, saveSession store sessionId sessionData, 1⟩

/-! ## file-storage.ts: cleanupOldSessions -/

/-- One directory entry seen by the cleanup sweep: its file name, its
filesystem modification time, whether `fs.stat`/`fs.unlink` throws for it,
and the session record its bytes contain when they parse (the sweep itself
never reads the bytes; the field exists to state the claim). -/
structure StoredFile where
  name : String
  mtimeMs : Nat
  statFails : Bool
  record : Option SessionData
deriving DecidableEq, Repr

/-- `cleanupOldSessions` (`src/utils/file-storage.ts`): for every directory
entry ending in `.json`, stat it and unlink it when `now - mtimeMs > maxAgeMs`;
a per-entry failure is logged and that entry skipped, the rest proceed.
Returns the surviving directory entries. -/
def cleanupOldSessions (now maxAgeMs : Nat) : List StoredFile → List StoredFile
  | [] => []
  | f :: rest =>
    let survivors := cleanupOldSessions now maxAgeMs rest
    if jsEndsWith f.name ".json" then
      if f.statFails then f :: survivors
      else if now - f.mtimeMs > maxAgeMs then survivors
      else f :: survivors
    else f :: survivors

/-! ## transcript-reader.ts / sent-messages-storage.ts / assistant-message-handler.ts -/

/-- One entry of a transcript turn's `message.content` array. -/
inductive ContentItem where
  | text (s : String)
  | thinking (s : String)
  | toolUse (name id : String)
  | other
deriving DecidableEq, Repr

/-- A parsed transcript line (`SessionMessage`). `hasMessage` models the
presence of the `message` property, `contentIsArray` whether
`message.content` is a JSON array; `metadataModel` and `usage` model the
optional `metadata.model` and `message.usage` token counts. -/
structure TranscriptMessage where
  msgType : String
  hasMessage : Bool
  contentIsArray : Bool
  content : List ContentItem
  timestamp : String
  metadataModel : Option String
  usage : Option (Nat × Nat)
deriving DecidableEq, Repr

/-- `getAllAssistantMessages` (`src/utils/transcript-reader.ts`):
`messages.filter(msg => msg && msg.type === "assistant")`. -/
def getAllAssistantMessages (messages : List TranscriptMessage) : List TranscriptMessage :=
  messages.filter fun m => m.msgType == "assistant"

/-- `getLatestAssistantMessage` (`src/utils/transcript-reader.ts`): scan the
transcript from the end for the last message of type `assistant`. -/
def getLatestAssistantMessage (messages : List TranscriptMessage) : Option TranscriptMessage :=
  messages.reverse.find? fun m => m.msgType == "assistant"

/-- The text parts pushed by the readers: items of type `text` whose `text`
field is truthy (nonempty). -/
def textParts (content : List ContentItem) : List String :=
  content.filterMap fun
    | .text s => if s = "" then none else some s
    | _ => none

/-- The thinking parts pushed by the readers. -/
def thinkingParts (content : List ContentItem) : List String :=
  content.filterMap fun
    | .thinking s => if s = "" then none else some s
    | _ => none

/-- The tool uses collected by the readers. -/
def toolUseParts (content : List ContentItem) : List (String × String) :=
  content.filterMap fun
    | .toolUse name id => some (name, id)
    | _ => none

/-- `AssistantSummary` (`src/utils/transcript-reader.ts`). -/
structure AssistantSummary where
  text : String
  thinking : Option String
  toolUses : List (String × String)
  model : Option String
  tokenUsage : Option (Nat × Nat)
deriving DecidableEq, Repr

/-- `getLatestAssistantSummary` (`src/utils/transcript-reader.ts`): summary
of the latest assistant message — joined text parts, joined thinking parts
when any, tool uses, optional model and token usage; null when there is no
assistant message or its content is not an array. -/
def getLatestAssistantSummary (messages : List TranscriptMessage) : Option AssistantSummary :=
  match getLatestAssistantMessage messages with
  | none => none
  | some m =>
    if ¬(m.msgType = "assistant") then none
    else if ¬m.contentIsArray then none
    else
      some
        { text := String.intercalate "\n" (textParts m.content)
          thinking :=
            if (thinkingParts m.content).length > 0 then
              some (String.intercalate "\n" (thinkingParts m.content))
            else none
          toolUses := toolUseParts m.content
          model := m.metadataModel
          tokenUsage := m.usage }

/-- The `hasTextContent` check of `sendUnsentAssistantMessages`
(`src/utils/assistant-message-handler.ts`):
`content.some(item => item.type === "text" && item.text && item.text.trim().length > 0)`. -/
def hasTextContent (m : TranscriptMessage) : Bool :=
  m.content.any fun
    | .text s => !(s == "") && decide (jsLength (jsTrim s) > 0)
    | _ => false

/-- Result of one run of `sendUnsentAssistantMessages`: the turns whose
Slack post succeeded, in post order, and the final sent-fingerprint set
(a turn stands for its `hashMessage` fingerprint). -/
structure DrainResult where
  posts : List TranscriptMessage
  sent : List TranscriptMessage
deriving DecidableEq, Repr

/-- The `for` loop of `sendUnsentAssistantMessages`
(`src/utils/assistant-message-handler.ts`): per message — skip when its
fingerprint `hasBeenSent`; skip non-assistant messages and those without a
`message` property or a content array; when the message has text content,
post it (`postOk` gives the network outcome) and `markAsSent` only after the
post succeeded. A thrown post lands in the surrounding catch, aborting the
remaining messages while keeping the fingerprints recorded so far. -/
def sendLoop (postOk : TranscriptMessage → Bool) (sent : List TranscriptMessage) :
    List TranscriptMessage → DrainResult
  | [] => ⟨[], sent⟩
  | m :: rest =>
    if m ∈ sent then sendLoop postOk sent rest
    else if m.msgType ≠ "assistant" ∨ m.hasMessage = false then sendLoop postOk sent rest
    else if m.contentIsArray = false then sendLoop postOk sent rest
    else if hasTextContent m then
      if postOk m then
        let r := sendLoop postOk (m :: sent) rest
        ⟨m :: r.posts, r.sent⟩
      else ⟨[], sent⟩
    else sendLoop postOk sent rest

/-- `sendUnsentAssistantMessages` (`src/utils/assistant-message-handler.ts`):
run the loop over `getAllAssistantMessages` of the transcript. -/
def sendUnsentAssistantMessages (postOk : TranscriptMessage → Bool)
    (sent : List TranscriptMessage) (transcript : List TranscriptMessage) : DrainResult :=
  sendLoop postOk sent (getAllAssistantMessages transcript)

/-! ## hook-event.schema.ts -/

/-- A JSON value, as far as the schemas inspect one. -/
inductive Json where
  | str (s : String)
  | num (n : Int)
  | bool (b : Bool)
  | null
  | arr (elems : List Json)
  | obj (fields : List (String × Json))

/-- The fields shared by every hook event (`BaseHookEventSchema`). -/
structure HookBase where
  session_id : String
  transcript_path : String
  cwd : String
deriving DecidableEq, Repr

/-- The discriminated union `HookEventSchema`
(`src/schemas/hook-event.schema.ts`), one constructor per
`hook_event_name` literal. `tool_response` is `z.unknown()` (anything,
possibly absent); `stop_hook_active` is an optional boolean. -/
inductive HookEvent where
  | userPromptSubmit (base : HookBase) (prompt : String)
  | postToolUse (base : HookBase) (tool_name : String)
      (tool_input : List (String × Json)) (tool_response : Option Json)
  | stop (base : HookBase) (stop_hook_active : Option Bool)
  | subagentStop (base : HookBase) (stop_hook_active : Option Bool)
  | notification (base : HookBase) (message : String)
  | preCompact (base : HookBase) (trigger : String) (custom_instructions : String)
  | preToolUse (base : HookBase) (tool_name : String) (tool_input : List (String × Json))

/-- First-occurrence key lookup in a JSON object. -/
def getField : List (String × Json) → String → Option Json
  | [], _ => none
  | (k, v) :: rest, key => if k = key then some v else getField rest key

/-- `z.string()` applied to one field. -/
def getStr (get : String → Option Json) (key : String) : Option String :=
  match get key with
  | some (.str s) => some s
  | _ => none

/-- `z.record(z.string(), z.unknown())` applied to one field: the value must
be an object. -/
def getObjFields (get : String → Option Json) (key : String) :
    Option (List (String × Json)) :=
  match get key with
  | some (.obj fs) => some fs
  | _ => none

/-- `z.boolean().optional()` applied to one field: absent is fine, a present
value must be a boolean. -/
def getOptBool (get : String → Option Json) (key : String) : Option (Option Bool) :=
  match get key with
  | none => some none
  | some (.bool b) => some (some b)
  | some _ => none

/-- `z.union([z.literal("manual"), z.literal("auto")])` applied to one field. -/
def getTrigger (get : String → Option Json) (key : String) : Option String :=
  match get key with
  | some (.str s) => if s = "manual" ∨ s = "auto" then some s else none
  | _ => none

/-- Every key declared by some member schema of `HookEventSchema`. -/
def schemaKeys : List String :=
  ["hook_event_name", "session_id", "transcript_path", "cwd", "prompt", "tool_name",
   "tool_input", "tool_response", "stop_hook_active", "message", "trigger",
   "custom_instructions"]

/-- Validation of an object's fields against `HookEventSchema`
(`src/schemas/hook-event.schema.ts`). The member schemas are plain
`z.object`s, whose default mode validates each declared member and strips
unrecognized keys — so only the declared keys are ever read. The
discriminated union dispatches on the `hook_event_name` literal; an
unknown or missing tag fails. -/
def parseFields (get : String → Option Json) : Option HookEvent :=
  match getStr get "hook_event_name" with
  | none => none
  | some tag =>
    match getStr get "session_id", getStr get "transcript_path", getStr get "cwd" with
    | some sid, some tp, some cwd =>
      let base : HookBase := ⟨sid, tp, cwd⟩
      if tag = "UserPromptSubmit" then
        match getStr get "prompt" with
        | some p => some (.userPromptSubmit base p)
        | none => none
      else if tag = "PostToolUse" then
        match getStr get "tool_name", getObjFields get "tool_input" with
        | some tn, some ti => some (.postToolUse base tn ti (get "tool_response"))
        | _, _ => none
      else if tag = "Stop" then
        match getOptBool get "stop_hook_active" with
        | some sha => some (.stop base sha)
        | none => none
      else if tag = "SubagentStop" then
        match getOptBool get "stop_hook_active" with
        | some sha => some (.subagentStop base sha)
        | none => none
      else if tag = "Notification" then
        match getStr get "message" with
        | some msg => some (.notification base msg)
        | none => none
      else if tag = "PreCompact" then
        match getTrigger get "trigger", getStr get "custom_instructions" with
        | some tr, some ci => some (.preCompact base tr ci)
        | _, _ => none
      else if tag = "PreToolUse" then
        match getStr get "tool_name", getObjFields get "tool_input" with
        | some tn, some ti => some (.preToolUse base tn ti)
        | _, _ => none
      else none
    | _, _, _ => none

/-- `parseHookEvent` (`src/schemas/hook-event.schema.ts`): a non-object
input fails; an object is validated by the discriminated union. -/
def parseHookEvent : Json → Option HookEvent
  | .obj fields => parseFields (getField fields)
  | _ => none

/-! ## message-formatter.ts (hook-event formatter) -/

/-- A Slack Block Kit block, at the granularity the formatter produces:
`section` and `header` carry their text, `context` the text of its single
mrkdwn element. -/
inductive Block where
  | header (text : String)
  | section (text : String)
  | context (text : String)
  | divider
deriving DecidableEq, Repr

/-- The `{ text, blocks }` payload handed to `chat.postMessage`. -/
structure SlackMessage where
  text : String
  blocks : List Block
deriving DecidableEq, Repr

mutual

/-- `JSON.stringify` over the modelled JSON values (the real call
pretty-prints with two-space indent; the model serializes compactly, which
only shifts where the 500-character preview cut falls). -/
def jsonStringify : Json → String
  | .str s => "\"" ++ s ++ "\""
  | .num n => toString n
  | .bool b => if b then "true" else "false"
  | .null => "null"
  | .arr xs => "[" ++ jsonStringifyList xs ++ "]"
  | .obj fs => "\x7b" ++ jsonStringifyFields fs ++ "\x7d"

def jsonStringifyList : List Json → String
  | [] => ""
  | [x] => jsonStringify x
  | x :: rest => jsonStringify x ++ "," ++ jsonStringifyList rest

def jsonStringifyFields : List (String × Json) → String
  | [] => ""
  | [(k, v)] => "\"" ++ k ++ "\":" ++ jsonStringify v
  | (k, v) :: rest => "\"" ++ k ++ "\":" ++ jsonStringify v ++ "," ++ jsonStringifyFields rest

end

/-- JS truthiness of an optional JSON value (`event.tool_response` test). -/
def jsonTruthy : Option Json → Bool
  | none => false
  | some (.str s) => !(s == "")
  | some (.num n) => !(n == 0)
  | some (.bool b) => b
  | some .null => false
  | some (.arr _) => true
  | some (.obj _) => true

/-- `formatToolData` (`src/slack/message-formatter.ts`): serialize and cut
at 500 characters with an ellipsis marker. -/
def formatToolData (data : Json) : String :=
  let str := jsonStringify data
  if jsLength str > 500 then jsSubstring str 500 ++ "..." else str

/-- `formatUserPromptSubmit` (`src/slack/message-formatter.ts`): header,
prompt body cut at 3000 characters (`prompt.substring(0, 3000) + "..."`
when `prompt.length > 3000`), divider. `time` is `formatTimestamp()`. -/
def formatUserPromptSubmit (time prompt : String) : SlackMessage :=
  { text := "User: " ++ jsSubstring prompt 100 ++ "..."
    blocks :=
      [.section ("👤 *User at " ++ time ++ "*"),
       .section (if jsLength prompt > 3000 then jsSubstring prompt 3000 ++ "..." else prompt),
       .divider] }

/-- `formatPostToolUse` (`src/slack/message-formatter.ts`). -/
def formatPostToolUse (time tool_name : String) (tool_input : List (String × Json))
    (tool_response : Option Json) : SlackMessage :=
  { text := "Tool Use: " ++ tool_name
    blocks :=
      [.section ("🔧 *Tool Use: " ++ tool_name ++ " at " ++ time ++ "*"),
       .section ("*Input:*\n```" ++ formatToolData (.obj tool_input) ++ "```")] ++
      (match tool_response with
       | some resp => if jsonTruthy (some resp) then
           [.section ("*Response:*\n```" ++ formatToolData resp ++ "```")] else []
       | none => []) ++
      [.divider] }

/-- `formatStop` (`src/slack/message-formatter.ts`). -/
def formatStop (time : String) (stop_hook_active : Option Bool) : SlackMessage :=
  { text := "Session completed"
    blocks :=
      [.section ("✅ *Session Completed at " ++ time ++ "*")] ++
      (if stop_hook_active = some true then [.context "⚠️ Stop hook is active"] else []) ++
      [.divider] }

/-- `formatNotification` (`src/slack/message-formatter.ts`): classify the
message by substring — "permission" → permission request, else "waiting" →
idle, else generic. -/
def formatNotification (time message : String) : SlackMessage :=
  let isPermissionRequest := jsIncludes message "permission"
  let isIdle := jsIncludes message "waiting"
  let icon := if isPermissionRequest then "🔐" else if isIdle then "⏳" else "ℹ️"
  let header := if isPermissionRequest then "Permission Request"
    else if isIdle then "Idle Notification" else "Notification"
  { text := message
    blocks :=
      [.section (icon ++ " *" ++ header ++ " at " ++ time ++ "*"),
       .section message,
       .divider] }

/-- The `hook_event_name` tag of an event. -/
def hookEventName : HookEvent → String
  | .userPromptSubmit .. => "UserPromptSubmit"
  | .postToolUse .. => "PostToolUse"
  | .stop .. => "Stop"
  | .subagentStop .. => "SubagentStop"
  | .notification .. => "Notification"
  | .preCompact .. => "PreCompact"
  | .preToolUse .. => "PreToolUse"

/-- The base fields of an event. -/
def eventBase : HookEvent → HookBase
  | .userPromptSubmit base _ => base
  | .postToolUse base _ _ _ => base
  | .stop base _ => base
  | .subagentStop base _ => base
  | .notification base _ => base
  | .preCompact base _ _ => base
  | .preToolUse base _ _ => base

/-- `formatHookEventForSlack` (`src/slack/message-formatter.ts`): dispatch
on the event kind; UserPromptSubmit, PostToolUse, Stop and Notification have
dedicated formatters, every other kind (SubagentStop, PreCompact,
PreToolUse) falls into the default generic format. -/
def formatHookEventForSlack (time : String) (event : HookEvent) : SlackMessage :=
  match event with
  | .userPromptSubmit _ prompt => formatUserPromptSubmit time prompt
  | .postToolUse _ tn ti tr => formatPostToolUse time tn ti tr
  | .stop _ sha => formatStop time sha
  | .notification _ msg => formatNotification time msg
  | _ =>
    { text := hookEventName event ++ " event"
      blocks :=
        [.section ("*" ++ hookEventName event ++ "* at " ++ time),
         .divider] }

/-- `formatAssistantResponseForSlack` (`src/hook-processor.ts`): header with
optional model, thinking cut at 1500, text cut at 3000, tool-use line, token
line, divider. -/
def formatAssistantResponseForSlack (time : String) (summary : AssistantSummary) :
    SlackMessage :=
  { text := "Assistant: " ++ jsSubstring summary.text 100 ++ "..."
    blocks :=
      [.section ("🤖 *Assistant Response" ++
        (match summary.model with
         | some m => " (" ++ m ++ ")"
         | none => "") ++ " at " ++ time ++ "*")] ++
      (match summary.thinking with
       | some th =>
         if th == "" then [] else
           [.section ("✻ *Thinking...*\n" ++
             (if jsLength th > 1500 then jsSubstring th 1500 ++ "..." else th))]
       | none => []) ++
      (if summary.text == "" then [] else
        [.section (if jsLength summary.text > 3000 then
          jsSubstring summary.text 3000 ++ "..." else summary.text)]) ++
      (if summary.toolUses.length > 0 then
        [.context ("🔧 Used tools: " ++
          String.intercalate ", " (summary.toolUses.map Prod.fst))]
       else []) ++
      (match summary.tokenUsage with
       | some (i, o) =>
         [.context ("📊 Tokens: " ++ toString i ++ " in / " ++ toString o ++ " out")]
       | none => []) ++
      [.divider] }

/-! ## hook-processor.ts: the delivery pipeline -/

/-- What one (non-dry-run, client-initialized) pipeline invocation did after
its input was parsed: the thread resolution outcome and its post count, the
primary message (formatted for every validated event and posted once), the
Stop-branch assistant-response posts, the store after, and the
sent-fingerprint set after. -/
structure PipelineResult where
  threadOutcome : Except String String
  threadCreatePosts : Nat
  primaryPosts : Nat
  primaryMessage : Option SlackMessage
  stopPosts : List SlackMessage
  store : Store
  sent : List TranscriptMessage

/-- The post-validation body of `processHookInput` (`src/hook-processor.ts`),
non-dry-run with an initialized client: format the event, resolve the thread
(`getOrCreateThread`), post the formatted message into it, and — only when
`hook_event_name === "Stop"` and `transcript_path` is truthy (nonempty) —
read the transcript's latest assistant summary and post that single
response when it has nonempty text. The sent-fingerprint store is never
touched. `transcript` is the parsed transcript the reader would return,
`createPost` the network outcome of the thread-creating post. -/
def processEvent (event : HookEvent) (channel : String) (now : Nat) (time : String)
    (createPost : PostResult) (transcript : List TranscriptMessage)
    (store : Store) (sent : List TranscriptMessage) : PipelineResult :=
  let slackMessage := formatHookEventForSlack time event
  let r := getOrCreateThread (eventBase event).session_id true channel now createPost store
  match r.outcome with
  | .error e => ⟨.error e, r.postCalls, 0, none, [], r.store, sent⟩
  | .ok ts =>
    let stopPosts :=
      if hookEventName event = "Stop" ∧ (eventBase event).transcript_path ≠ "" then
        match getLatestAssistantSummary transcript with
        | some summary =>
          if summary.text ≠ "" then [formatAssistantResponseForSlack time summary] else []
        | none => []
      else []
    ⟨.ok ts, r.postCalls, 1, some slackMessage, stopPosts, r.store, sent⟩

/-- Written from the spec's words, for comparison with the code (claim C3):
the TranscriptDrain state "reads all transcript turns, filters out any whose
fingerprint is already recorded, formats and posts each remaining turn in
transcript order, recording its fingerprint immediately after a successful
post"; turns with no extractable text never match. Returns the turns that
the spec says get posted, and the fingerprint set the spec says results. -/
def specTranscriptDrain (transcript sent : List TranscriptMessage) :
    List TranscriptMessage × List TranscriptMessage :=
  let todo := transcript.filter fun m =>
    m.msgType == "assistant" && hasTextContent m && !(sent.contains m)
  (todo, sent ++ todo)

/-! ## message-formatter.ts (legacy session-message formatter) -/

/-- `truncateText` (`src/slack/message-formatter.ts`, legacy session-message
formatter): return the text unchanged when within `maxLength`, otherwise
`text.substring(0, maxLength - 3) + "..."`. -/
def truncateText (text : String) (maxLength : Nat) : String :=
  if jsLength text ≤ maxLength then text
  else jsSubstring text (maxLength - 3) ++ "..."

/-! ## Concrete instances used by witnesses and counterexamples -/

/-- A session record whose `lastActivity` is the sweep time used below. -/
def exFreshRecord : SessionData := ⟨"111.222", 10000, "C1", "s1"⟩

/-- A stored session file holding `exFreshRecord` but with an ancient
filesystem modification time. -/
def exStaleFile : StoredFile := ⟨"s1.json", 0, false, some exFreshRecord⟩

/-- An assistant transcript turn with text content. -/
def exTurn1 : TranscriptMessage := ⟨"assistant", true, true, [.text "hello"], "t1", none, none⟩

/-- A second, distinct assistant transcript turn with text content. -/
def exTurn2 : TranscriptMessage := ⟨"assistant", true, true, [.text "world"], "t2", none, none⟩

/-- The base fields shared by the concrete events below. -/
def exBase : HookBase := ⟨"s1", "/tmp/t.jsonl", "/w"⟩

/-- A concrete Stop event. -/
def exStopEvent : HookEvent := .stop exBase none

/-- A concrete SubagentStop event. -/
def exSubagentStopEvent : HookEvent := .subagentStop exBase none

/-- A concrete PreToolUse event. -/
def exPreToolUseEvent : HookEvent := .preToolUse exBase "Bash" [("command", .str "ls")]

/-- A UserPromptSubmit JSON object carrying one unrecognized extra field. -/
def exUpsExtraObj : Json :=
  .obj [("session_id", .str "s1"), ("transcript_path", .str "/t"), ("cwd", .str "/c"),
    ("hook_event_name", .str "UserPromptSubmit"), ("prompt", .str "hi"),
    ("extra", .str "x")]

/-- The event the extra-field object parses to. -/
def exPromptEvent : HookEvent := .userPromptSubmit ⟨"s1", "/t", "/c"⟩ "hi"

/-- A minimal Stop JSON object's fields. -/
def exStopFields : List (String × Json) :=
  [("session_id", .str "s1"), ("transcript_path", .str "/t"), ("cwd", .str "/c"),
   ("hook_event_name", .str "Stop")]

/-- The event `exStopFields` parses to. -/
def exStopParsed : HookEvent := .stop ⟨"s1", "/t", "/c"⟩ none

/-! ## Store lemmas -/

/-- Reading back a freshly written file yields the written content. -/
theorem storeLookup_storeInsert_self (st : Store) (key : String) (v : FileContent) :
    storeLookup (storeInsert st key v) key = some v := by
  induction st with
  | nil => simp [storeInsert, storeLookup]
  | cons kv rest ih =>
    obtain ⟨k, w⟩ := kv
    by_cases h : k = key
    · simp [storeInsert, h, storeLookup]
    · simp [storeInsert, h, storeLookup, ih]

/-- Loading a session right after saving it returns the saved record. -/
theorem loadSession_saveSession_self (store : Store) (sessionId : String) (d : SessionData) :
    loadSession (saveSession store sessionId d) sessionId = some d := by
  simp [loadSession, saveSession, storeLookup_storeInsert_self]

/-! ## Claim theorems -/

/-- Claim C1: for a session with no existing record, calling
`getOrCreateThread` twice in succession returns the same thread handle both
times and makes exactly one thread-creating post across the two calls: the
first call posts (one post call) and persists the returned `ts` as the
record's `threadTs`; the second call loads the record, bumps `lastActivity`
to its own now, and returns the stored `threadTs` with zero post calls. -/
theorem c1_thread_resolution_idempotent (sid channel : String) (now₁ now₂ : Nat)
    (store : Store) (ts : String) (post₂ : PostResult)
    (h : loadSession store sid = none) :
    (getOrCreateThread sid true channel now₁ (.ok (some ts)) store).outcome = .ok ts ∧
    (getOrCreateThread sid true channel now₁ (.ok (some ts)) store).postCalls = 1 ∧
    loadSession (getOrCreateThread sid true channel now₁ (.ok (some ts)) store).store sid =
      some ⟨ts, now₁, channel, sid⟩ ∧
    (getOrCreateThread sid true channel now₂ post₂
      (getOrCreateThread sid true channel now₁ (.ok (some ts)) store).store).outcome = .ok ts ∧
    (getOrCreateThread sid true channel now₂ post₂
      (getOrCreateThread sid true channel now₁ (.ok (some ts)) store).store).postCalls = 0 ∧
    loadSession (getOrCreateThread sid true channel now₂ post₂
      (getOrCreateThread sid true channel now₁ (.ok (some ts)) store).store).store sid =
      some ⟨ts, now₂, channel, sid⟩ := by
  simp [getOrCreateThread, h, loadSession_saveSession_self]

/-- Witness for C1 at a concrete fresh store. -/
theorem c1_thread_resolution_idempotent_witness :
    loadSession ([] : Store) "s1" = none ∧
    (getOrCreateThread "s1" true "C1" 5 (.ok (some "111.222")) []).outcome = .ok "111.222" ∧
    (getOrCreateThread "s1" true "C1" 5 (.ok (some "111.222")) []).postCalls = 1 ∧
    loadSession (getOrCreateThread "s1" true "C1" 5 (.ok (some "111.222")) []).store "s1" =
      some ⟨"111.222", 5, "C1", "s1"⟩ ∧
    (getOrCreateThread "s1" true "C1" 9 .failed
      (getOrCreateThread "s1" true "C1" 5 (.ok (some "111.222")) []).store).outcome =
      .ok "111.222" ∧
    (getOrCreateThread "s1" true "C1" 9 .failed
      (getOrCreateThread "s1" true "C1" 5 (.ok (some "111.222")) []).store).postCalls = 0 ∧
    loadSession (getOrCreateThread "s1" true "C1" 9 .failed
      (getOrCreateThread "s1" true "C1" 5 (.ok (some "111.222")) []).store).store "s1" =
      some ⟨"111.222", 9, "C1", "s1"⟩ := by
  refine ⟨rfl, ?_⟩
  have h := c1_thread_resolution_idempotent "s1" "C1" 5 9 [] "111.222" .failed rfl
  exact ⟨h.1, h.2.1, h.2.2.1, h.2.2.2.1, h.2.2.2.2.1, h.2.2.2.2.2⟩

/-- Claim C6: when the thread-creating post fails for a session with no
existing record, `getOrCreateThread` surfaces a delivery error and the store
is unchanged — no record is persisted. -/
theorem c6_create_failure_persists_nothing (sid channel : String) (now : Nat) (store : Store)
    (h : loadSession store sid = none) :
    (getOrCreateThread sid true channel now .failed store).outcome =
      .error "Failed to create thread" ∧
    (getOrCreateThread sid true channel now .failed store).store = store ∧
    (getOrCreateThread sid true channel now .failed store).postCalls = 1 := by
  simp [getOrCreateThread, h]

/-- Witness for C6 at a concrete fresh store. -/
theorem c6_create_failure_persists_nothing_witness :
    loadSession ([] : Store) "s1" = none ∧
    (getOrCreateThread "s1" true "C1" 5 .failed []).outcome =
      .error "Failed to create thread" ∧
    (getOrCreateThread "s1" true "C1" 5 .failed []).store = [] ∧
    (getOrCreateThread "s1" true "C1" 5 .failed []).postCalls = 1 :=
  ⟨rfl, c6_create_failure_persists_nothing "s1" "C1" 5 [] rfl⟩

/-- Claim C10: a stored session file that exists but is unreadable or holds
invalid JSON loads as `none` rather than an error, so `getOrCreateThread`
falls through to creating a fresh thread instead of aborting. -/
theorem c10_corrupt_session_file_loads_as_absent (sid channel ts : String) (now : Nat)
    (store : Store) (h : storeLookup store (sessionFileName sid) = some .corrupt) :
    loadSession store sid = none ∧
    (getOrCreateThread sid true channel now (.ok (some ts)) store).outcome = .ok ts ∧
    (getOrCreateThread sid true channel now (.ok (some ts)) store).postCalls = 1 := by
  have hl : loadSession store sid = none := by simp [loadSession, h]
  simp [getOrCreateThread, hl]

/-- Witness for C10 at a concrete store holding a corrupt session file. -/
theorem c10_corrupt_session_file_loads_as_absent_witness :
    storeLookup [(sessionFileName "s1", FileContent.corrupt)] (sessionFileName "s1") =
      some .corrupt ∧
    loadSession [(sessionFileName "s1", FileContent.corrupt)] "s1" = none ∧
    (getOrCreateThread "s1" true "C1" 5 (.ok (some "111.222"))
      [(sessionFileName "s1", FileContent.corrupt)]).outcome = .ok "111.222" ∧
    (getOrCreateThread "s1" true "C1" 5 (.ok (some "111.222"))
      [(sessionFileName "s1", FileContent.corrupt)]).postCalls = 1 :=
  ⟨rfl, c10_corrupt_session_file_loads_as_absent "s1" "C1" "111.222" 5 _ rfl⟩

/-- Appending strings appends their character lists. -/
theorem data_append (s t : String) : (s ++ t).data = s.data ++ t.data := by
  cases s; cases t; rfl

/-- A dot-free list followed by `".json"` has no `".."` substring. -/
theorem hasDotDot_append_json (l : List Char) (h : ∀ c ∈ l, c ≠ '.') :
    hasDotDot (l ++ ".json".data) = false := by
  induction l with
  | nil => decide
  | cons a l ih =>
    have ha : (a == '.') = false := by
      simp only [beq_eq_false_iff_ne, ne_eq]
      exact h a (List.mem_cons_self a l)
    cases l with
    | nil =>
      show hasDotDot (a :: '.' :: 'j' :: 's' :: 'o' :: 'n' :: []) = false
      simp [hasDotDot, ha]
    | cons b l' =>
      have ih' := ih fun c hc => h c (List.mem_cons_of_mem a hc)
      simp only [List.cons_append] at ih' ⊢
      simp [hasDotDot, ha, ih']

/-- Every character the sanitizer outputs is in the allowed class or is the
replacement underscore. -/
theorem sanitizeSessionId_chars (sessionId : String) :
    ∀ c ∈ (sanitizeSessionId sessionId).data, allowedChar c = true ∨ c = '_' := by
  intro c hc
  simp only [sanitizeSessionId, List.mem_map] at hc
  obtain ⟨x, _, hfx⟩ := hc
  by_cases hx : allowedChar x
  · left; rw [← hfx]; simp [hx]
  · right; rw [← hfx]; simp [hx]

/-- Claim C9: the storage key replaces every character outside
`[A-Za-z0-9_-]` with `_`, so the session file name contains no `/` and no
`..` sequence — a path-traversal session id cannot escape the storage
directory. -/
theorem c9_sanitized_filename_is_path_safe (sessionId : String) :
    (∀ c ∈ (sanitizeSessionId sessionId).data, allowedChar c = true ∨ c = '_') ∧
    '/' ∉ (sessionFileName sessionId).data ∧
    hasDotDot (sessionFileName sessionId).data = false := by
  have hdata : (sessionFileName sessionId).data =
      (sanitizeSessionId sessionId).data ++ ".json".data := by
    simp [sessionFileName, data_append]
  have hchars := sanitizeSessionId_chars sessionId
  refine ⟨hchars, ?_, ?_⟩
  · rw [hdata]
    intro hmem
    rcases List.mem_append.mp hmem with hmem | hmem
    · rcases hchars '/' hmem with h | h
      · exact absurd h (by decide)
      · exact absurd h (by decide)
    · revert hmem; decide
  · rw [hdata]
    refine hasDotDot_append_json _ fun c hc => ?_
    rcases hchars c hc with h | h
    · intro hdot; rw [hdot] at h; exact absurd h (by decide)
    · intro hdot; rw [hdot] at h; exact absurd h (by decide)

/-- Witness for C9 at the path-traversal session id from the spec. -/
theorem c9_sanitized_filename_is_path_safe_witness :
    (allowedChar 'e' = true ∨ 'e' = '_') ∧
    '/' ∉ (sessionFileName "../../evil").data ∧
    hasDotDot (sessionFileName "../../evil").data = false ∧
    sanitizeSessionId "../../evil" = "______evil" := by
  have h := c9_sanitized_filename_is_path_safe "../../evil"
  exact ⟨h.1 'e' (by decide), h.2.1, h.2.2, by decide⟩

/-- Length of an appended string. -/
theorem jsLength_append (s t : String) : jsLength (s ++ t) = jsLength s + jsLength t := by
  simp [jsLength, data_append]

/-- Length of a substring from the start. -/
theorem jsLength_jsSubstring (s : String) (n : Nat) :
    jsLength (jsSubstring s n) = min n (jsLength s) := by
  simp [jsLength, jsSubstring]

/-- The legacy `truncateText` cuts a too-long text to `maxLength` characters
in total: `maxLength - 3` characters of content plus the three-character
ellipsis marker. -/
theorem truncateText_length_of_long (text : String) (maxLength : Nat)
    (h3 : 3 ≤ maxLength) (h : maxLength < jsLength text) :
    jsLength (truncateText text maxLength) = maxLength := by
  rw [truncateText, if_neg (not_le.mpr h), jsLength_append, jsLength_jsSubstring]
  have hm : min (maxLength - 3) (jsLength text) = maxLength - 3 :=
    Nat.min_eq_left (le_trans (Nat.sub_le _ _) (le_of_lt h))
  rw [hm]
  have : jsLength "..." = 3 := rfl
  omega

/-- Counterexample to claim C7: a 3001-character body rendered through the
legacy `truncateText` at the 3000-character cap is 3000 characters long
including the marker, not the 3003 the claim states. -/
theorem c7_counterexample :
    jsLength (truncateText (String.mk (List.replicate 3001 'a')) 3000) = 3000 ∧
    jsLength (truncateText (String.mk (List.replicate 3001 'a')) 3000) ≠ 3003 := by
  have hlen : jsLength (String.mk (List.replicate 3001 'a')) = 3001 := by
    show (List.replicate 3001 'a').length = 3001
    rw [List.length_replicate]
  have h := truncateText_length_of_long (String.mk (List.replicate 3001 'a')) 3000
    (by norm_num) (by rw [hlen]; norm_num)
  exact ⟨h, by rw [h]; norm_num⟩

/-- Claim C7 (amended): the hook-event formatter renders a prompt of at most
3000 characters unmodified and a longer prompt as its first 3000 characters
plus the ellipsis marker (3003 characters in total); the legacy
`truncateText`, by contrast, renders a body longer than its cap as
`cap - 3` characters plus the marker — `cap` characters in total, not
`cap + 3`. -/
theorem c7_truncation_boundary (time prompt : String) :
    (jsLength prompt ≤ 3000 →
      (formatUserPromptSubmit time prompt).blocks =
        [.section ("👤 *User at " ++ time ++ "*"), .section prompt, .divider]) ∧
    (3000 < jsLength prompt →
      (formatUserPromptSubmit time prompt).blocks =
        [.section ("👤 *User at " ++ time ++ "*"),
         .section (jsSubstring prompt 3000 ++ "..."), .divider] ∧
      jsLength (jsSubstring prompt 3000 ++ "...") = 3003) ∧
    (∀ maxLength, 3 ≤ maxLength → maxLength < jsLength prompt →
      jsLength (truncateText prompt maxLength) = maxLength) := by
  refine ⟨fun h => ?_, fun h => ⟨?_, ?_⟩, fun m h3 h => truncateText_length_of_long prompt m h3 h⟩
  · simp [formatUserPromptSubmit, if_neg (not_lt.mpr h)]
  · simp [formatUserPromptSubmit, if_pos h]
  · rw [jsLength_append, jsLength_jsSubstring, Nat.min_eq_left (le_of_lt h)]
    decide

/-- Witness for C7 (amended): a short prompt is untouched; a 3001-character
body comes out at 3003 through the hook formatter's cut and at 3000 through
the legacy `truncateText`. -/
theorem c7_truncation_boundary_witness :
    ((formatUserPromptSubmit "tt" "hi").blocks =
      [.section ("👤 *User at " ++ "tt" ++ "*"), .section "hi", .divider]) ∧
    jsLength (jsSubstring (String.mk (List.replicate 3001 'a')) 3000 ++ "...") = 3003 ∧
    jsLength (truncateText (String.mk (List.replicate 3001 'a')) 3000) = 3000 := by
  have hlong : 3000 < jsLength (String.mk (List.replicate 3001 'a')) := by
    show 3000 < (List.replicate 3001 'a').length
    rw [List.length_replicate]
    norm_num
  exact ⟨(c7_truncation_boundary "tt" "hi").1 (by decide),
    ((c7_truncation_boundary "tt" (String.mk (List.replicate 3001 'a'))).2.1 hlong).2,
    (c7_truncation_boundary "tt" (String.mk (List.replicate 3001 'a'))).2.2 3000
      (by norm_num) hlong⟩

/-- Claim C8 (amended): the sweep removes exactly the `.json` directory
entries whose filesystem modification time is older than `now - maxAgeMs`
and whose stat/unlink succeeds — the record's `lastActivity` field is never
consulted; an entry whose modification time is within the window is
retained, and a per-entry stat/unlink failure only skips that entry, never
the rest of the sweep. -/
theorem c8_sweep_by_mtime (now maxAgeMs : Nat) (files : List StoredFile) :
    cleanupOldSessions now maxAgeMs files =
      files.filter (fun f => !(jsEndsWith f.name ".json" && !f.statFails &&
        decide (now - f.mtimeMs > maxAgeMs))) ∧
    (∀ f ∈ files, now - f.mtimeMs ≤ maxAgeMs → f ∈ cleanupOldSessions now maxAgeMs files) ∧
    (∀ f ∈ files, f.statFails = true → f ∈ cleanupOldSessions now maxAgeMs files) := by
  have hfilter : cleanupOldSessions now maxAgeMs files =
      files.filter (fun f => !(jsEndsWith f.name ".json" && !f.statFails &&
        decide (now - f.mtimeMs > maxAgeMs))) := by
    induction files with
    | nil => simp [cleanupOldSessions]
    | cons f rest ih =>
      by_cases h1 : jsEndsWith f.name ".json" = true
      · by_cases h2 : f.statFails = true
        · simp [cleanupOldSessions, h1, h2, ih]
        · by_cases h3 : now - f.mtimeMs > maxAgeMs
          · simp [cleanupOldSessions, h1, h2, h3, ih]
          · simp [cleanupOldSessions, h1, h2, h3, ih]
      · simp [cleanupOldSessions, h1, ih]
  refine ⟨hfilter, fun f hf hage => ?_, fun f hf hfail => ?_⟩
  · rw [hfilter]
    refine List.mem_filter.mpr ⟨hf, ?_⟩
    have : decide (now - f.mtimeMs > maxAgeMs) = false :=
      decide_eq_false (not_lt.mpr hage)
    simp [this]
  · rw [hfilter]
    refine List.mem_filter.mpr ⟨hf, ?_⟩
    simp [hfail]

/-- Witness for C8 (amended) at a concrete directory. -/
theorem c8_sweep_by_mtime_witness :
    cleanupOldSessions 10000 3000 [⟨"a.json", 9000, false, none⟩, exStaleFile] =
      [⟨"a.json", 9000, false, none⟩] ∧
    (⟨"a.json", 9000, false, none⟩ : StoredFile) ∈
      cleanupOldSessions 10000 3000 [⟨"a.json", 9000, false, none⟩, exStaleFile] := by
  have h := c8_sweep_by_mtime 10000 3000 [⟨"a.json", 9000, false, none⟩, exStaleFile]
  refine ⟨h.1.trans (by decide), ?_⟩
  exact h.2.1 ⟨"a.json", 9000, false, none⟩ (by decide) (by decide)

/-- Counterexample to claim C8: a session file whose stored record's
`lastActivity` equals the sweep time (well within any window) is still
removed, because the sweep compares the file's modification time, not the
record's `lastActivity`. -/
theorem c8_counterexample :
    cleanupOldSessions 10000 3000 [exStaleFile] = [] ∧
    exStaleFile.record = some exFreshRecord ∧
    10000 - exFreshRecord.lastActivity ≤ 3000 := by
  refine ⟨?_, rfl, by decide⟩
  decide

/-- The drain's final fingerprint set is exactly the initial set plus the
turns whose post succeeded: a fingerprint is recorded only after a
successful post, and every successful post is recorded. -/
theorem sendLoop_sent_eq (postOk : TranscriptMessage → Bool) :
    ∀ (l : List TranscriptMessage) (sent : List TranscriptMessage),
      (sendLoop postOk sent l).sent = (sendLoop postOk sent l).posts.reverse ++ sent := by
  intro l
  induction l with
  | nil => intro sent; simp [sendLoop]
  | cons m rest ih =>
    intro sent
    by_cases h1 : m ∈ sent
    · simp [sendLoop, h1, ih]
    · by_cases h2 : m.msgType ≠ "assistant" ∨ m.hasMessage = false
      · simp [sendLoop, h1, h2, ih]
      · by_cases h3 : m.contentIsArray = false
        · simp [sendLoop, h1, h2, h3, ih]
        · by_cases h4 : hasTextContent m = true
          · by_cases h5 : postOk m = true
            · simp [sendLoop, h1, h2, h3, h4, h5, ih]
            · simp [sendLoop, h1, h2, h3, h4, h5]
          · simp [sendLoop, h1, h2, h3, h4, ih]

/-- A turn whose fingerprint is already recorded is never posted. -/
theorem sendLoop_skips_sent (postOk : TranscriptMessage → Bool) :
    ∀ (l sent : List TranscriptMessage) (m : TranscriptMessage), m ∈ sent →
      m ∉ (sendLoop postOk sent l).posts := by
  intro l
  induction l with
  | nil => intro sent m _; simp [sendLoop]
  | cons a rest ih =>
    intro sent m hm
    by_cases h1 : a ∈ sent
    · simpa [sendLoop, h1] using ih sent m hm
    · by_cases h2 : a.msgType ≠ "assistant" ∨ a.hasMessage = false
      · simpa [sendLoop, h1, h2] using ih sent m hm
      · by_cases h3 : a.contentIsArray = false
        · simpa [sendLoop, h1, h2, h3] using ih sent m hm
        · by_cases h4 : hasTextContent a = true
          · by_cases h5 : postOk a = true
            · simp only [sendLoop, if_neg h1, if_neg h2, if_neg h3, if_pos h4, if_pos h5]
              simp only [List.mem_cons, not_or]
              exact ⟨fun he => h1 (he ▸ hm),
                ih (a :: sent) m (List.mem_cons_of_mem a hm)⟩
            · simp [sendLoop, h1, h2, h3, h4, h5]
          · simpa [sendLoop, h1, h2, h3, h4] using ih sent m hm

/-- With every post succeeding and no processed turn already recorded, the
drain posts exactly the assistant turns with text content, in order. -/
theorem sendLoop_fresh_posts :
    ∀ (l sent : List TranscriptMessage), l.Nodup → (∀ m ∈ l, m ∉ sent) →
      (sendLoop (fun _ => true) sent l).posts =
        l.filter (fun m => (m.msgType == "assistant") && m.hasMessage &&
          m.contentIsArray && hasTextContent m) := by
  intro l
  induction l with
  | nil => intro sent _ _; simp [sendLoop]
  | cons m rest ih =>
    intro sent hnd hfresh
    have hm : m ∉ sent := hfresh m (List.mem_cons_self m rest)
    have hmr : m ∉ rest := (List.nodup_cons.mp hnd).1
    have hndr : rest.Nodup := (List.nodup_cons.mp hnd).2
    have hfreshr : ∀ x ∈ rest, x ∉ sent := fun x hx => hfresh x (List.mem_cons_of_mem m hx)
    by_cases h2 : m.msgType ≠ "assistant" ∨ m.hasMessage = false
    · have hp : ((m.msgType == "assistant") && m.hasMessage &&
          m.contentIsArray && hasTextContent m) = false := by
        rcases h2 with h | h
        · have : (m.msgType == "assistant") = false := by simp [h]
          simp [this]
        · simp [h]
      simp [sendLoop, hm, h2, hp, ih sent hndr hfreshr]
    · by_cases h3 : m.contentIsArray = false
      · have hp : ((m.msgType == "assistant") && m.hasMessage &&
            m.contentIsArray && hasTextContent m) = false := by simp [h3]
        simp [sendLoop, hm, h2, h3, hp, ih sent hndr hfreshr]
      · have hA : m.msgType = "assistant" := by
          rcases not_or.mp h2 with ⟨h, _⟩; exact not_not.mp h
        have hB : m.hasMessage = true := by
          rcases not_or.mp h2 with ⟨_, h⟩; revert h; cases m.hasMessage <;> simp
        have hC : m.contentIsArray = true := by revert h3; cases m.contentIsArray <;> simp
        by_cases h4 : hasTextContent m = true
        · have hp : ((m.msgType == "assistant") && m.hasMessage &&
              m.contentIsArray && hasTextContent m) = true := by simp [hA, hB, hC, h4]
          have ihr := ih (m :: sent) hndr fun x hx => by
            simp only [List.mem_cons, not_or]
            exact ⟨fun he => hmr (he ▸ hx), hfreshr x hx⟩
          simp [sendLoop, hm, h2, h3, h4, hp, ihr, List.filter_cons, hA, hB]
        · have hp : ((m.msgType == "assistant") && m.hasMessage &&
              m.contentIsArray && hasTextContent m) = false := by
            revert h4; cases hasTextContent m <;> simp
          simp [sendLoop, hm, h2, h3, h4, hp, ih sent hndr hfreshr]

/-- When every assistant turn with text content is already recorded, the
drain posts nothing. -/
theorem sendLoop_covered_posts_nil (postOk : TranscriptMessage → Bool) :
    ∀ (l sent : List TranscriptMessage),
      (∀ m ∈ l, ((m.msgType == "assistant") && m.hasMessage &&
        m.contentIsArray && hasTextContent m) = true → m ∈ sent) →
      (sendLoop postOk sent l).posts = [] := by
  intro l
  induction l with
  | nil => intro sent _; simp [sendLoop]
  | cons m rest ih =>
    intro sent hcov
    have hcovr : ∀ x ∈ rest, ((x.msgType == "assistant") && x.hasMessage &&
        x.contentIsArray && hasTextContent x) = true → x ∈ sent :=
      fun x hx => hcov x (List.mem_cons_of_mem m hx)
    by_cases h1 : m ∈ sent
    · simp [sendLoop, h1, ih sent hcovr]
    · by_cases h2 : m.msgType ≠ "assistant" ∨ m.hasMessage = false
      · simp [sendLoop, h1, h2, ih sent hcovr]
      · by_cases h3 : m.contentIsArray = false
        · simp [sendLoop, h1, h2, h3, ih sent hcovr]
        · by_cases h4 : hasTextContent m = true
          · exfalso
            have hA : m.msgType = "assistant" := by
              rcases not_or.mp h2 with ⟨h, _⟩; exact not_not.mp h
            have hB : m.hasMessage = true := by
              rcases not_or.mp h2 with ⟨_, h⟩; revert h; cases m.hasMessage <;> simp
            have hC : m.contentIsArray = true := by revert h3; cases m.contentIsArray <;> simp
            exact h1 (hcov m (List.mem_cons_self m rest) (by simp [hA, hB, hC, h4]))
          · simp [sendLoop, h1, h2, h3, h4, ih sent hcovr]

/-- Claim C2: a delivered-turn fingerprint is recorded only after the post
succeeded (the final set is exactly the initial set plus the successful
posts), a turn whose fingerprint is already recorded is never posted, and
running the delivery twice against an unchanged transcript (all posts
succeeding, fresh store, pairwise-distinct fingerprints) posts each
text-carrying assistant turn exactly once: the first run posts exactly
those turns and the second run posts nothing. -/
theorem c2_fingerprint_dedup (transcript : List TranscriptMessage)
    (hnd : (getAllAssistantMessages transcript).Nodup) :
    (∀ postOk sent, (sendUnsentAssistantMessages postOk sent transcript).sent =
      (sendUnsentAssistantMessages postOk sent transcript).posts.reverse ++ sent) ∧
    (∀ postOk sent m, m ∈ sent →
      m ∉ (sendUnsentAssistantMessages postOk sent transcript).posts) ∧
    (sendUnsentAssistantMessages (fun _ => true) [] transcript).posts =
      (getAllAssistantMessages transcript).filter (fun m =>
        (m.msgType == "assistant") && m.hasMessage &&
          m.contentIsArray && hasTextContent m) ∧
    (sendUnsentAssistantMessages (fun _ => true)
      (sendUnsentAssistantMessages (fun _ => true) [] transcript).sent transcript).posts = [] := by
  have hfirst : (sendUnsentAssistantMessages (fun _ => true) [] transcript).posts =
      (getAllAssistantMessages transcript).filter (fun m =>
        (m.msgType == "assistant") && m.hasMessage &&
          m.contentIsArray && hasTextContent m) :=
    sendLoop_fresh_posts (getAllAssistantMessages transcript) [] hnd (by simp)
  refine ⟨fun postOk sent => sendLoop_sent_eq postOk _ sent,
    fun postOk sent m hm => sendLoop_skips_sent postOk _ sent m hm, hfirst, ?_⟩
  refine sendLoop_covered_posts_nil _ _ _ fun m hm hp => ?_
  have hsent : (sendUnsentAssistantMessages (fun _ => true) [] transcript).sent =
      (sendUnsentAssistantMessages (fun _ => true) [] transcript).posts.reverse ++ [] :=
    sendLoop_sent_eq _ _ []
  rw [hsent, hfirst]
  simp only [List.append_nil, List.mem_reverse]
  exact List.mem_filter.mpr ⟨hm, hp⟩

/-- Witness for C2 at a concrete two-turn transcript. -/
theorem c2_fingerprint_dedup_witness :
    (getAllAssistantMessages [exTurn1, exTurn2]).Nodup ∧
    (sendUnsentAssistantMessages (fun _ => true) [] [exTurn1, exTurn2]).posts =
      [exTurn1, exTurn2] ∧
    (sendUnsentAssistantMessages (fun _ => true)
      (sendUnsentAssistantMessages (fun _ => true) [] [exTurn1, exTurn2]).sent
      [exTurn1, exTurn2]).posts = [] := by
  have h := c2_fingerprint_dedup [exTurn1, exTurn2] (by decide)
  exact ⟨by decide, h.2.2.1.trans (by decide), h.2.2.2⟩

/-- Counterexample to claim C3: on a Stop event whose transcript holds two
assistant text turns and an empty fingerprint set, the pipeline posts one
message (the latest turn's summary) and records no fingerprint, while the
claimed drain would post both turns and record both fingerprints; a
SubagentCompleted (SubagentStop) event triggers no transcript post at
all. -/
theorem c3_counterexample :
    (processEvent exStopEvent "C1" 5 "tt" (.ok (some "111.222"))
      [exTurn1, exTurn2] [] []).stopPosts.length = 1 ∧
    (specTranscriptDrain [exTurn1, exTurn2] []).1.length = 2 ∧
    (processEvent exStopEvent "C1" 5 "tt" (.ok (some "111.222"))
      [exTurn1, exTurn2] [] []).sent = [] ∧
    (specTranscriptDrain [exTurn1, exTurn2] []).2 = [exTurn1, exTurn2] ∧
    (processEvent exSubagentStopEvent "C1" 5 "tt" (.ok (some "111.222"))
      [exTurn1, exTurn2] [] []).stopPosts = [] := by
  refine ⟨by decide, by decide, by decide, by decide, by decide⟩

/-- Claim C3 (amended): only a Stop event (not SubagentStop) with a truthy
transcript path triggers a transcript read, and it posts at most one
message: the latest assistant turn's summary, when that summary has
nonempty text. The fingerprint store is neither consulted nor updated by
the pipeline (the fingerprint drain exists as
`sendUnsentAssistantMessages` but is not invoked). -/
theorem c3_stop_branch_posts_latest_only (base : HookBase) (sha : Option Bool)
    (channel : String) (now : Nat) (time : String) (createPost : PostResult)
    (transcript : List TranscriptMessage) (store : Store) (sent : List TranscriptMessage) :
    (processEvent (.subagentStop base sha) channel now time createPost
      transcript store sent).stopPosts = [] ∧
    (processEvent (.stop base sha) channel now time createPost
      transcript store sent).sent = sent ∧
    (processEvent (.stop base sha) channel now time createPost
      transcript store sent).stopPosts.length ≤ 1 ∧
    (base.transcript_path = "" →
      (processEvent (.stop base sha) channel now time createPost
        transcript store sent).stopPosts = []) ∧
    (∀ msg, (processEvent (.stop base sha) channel now time createPost
        transcript store sent).stopPosts = [msg] →
      ∃ summary, getLatestAssistantSummary transcript = some summary ∧
        summary.text ≠ "" ∧ msg = formatAssistantResponseForSlack time summary) := by
  refine ⟨?_, ?_, ?_, ?_, ?_⟩
  · cases hout : (getOrCreateThread base.session_id true channel now createPost store).outcome with
    | error e => simp [processEvent, eventBase, hout]
    | ok ts => simp [processEvent, eventBase, hookEventName, hout]
  · cases hout : (getOrCreateThread base.session_id true channel now createPost store).outcome with
    | error e => simp [processEvent, eventBase, hout]
    | ok ts => simp [processEvent, eventBase, hout]
  · cases hout : (getOrCreateThread base.session_id true channel now createPost store).outcome with
    | error e => simp [processEvent, eventBase, hout]
    | ok ts =>
      simp only [processEvent, eventBase, hout]
      split
      · split
        · split <;> simp
        · simp
      · simp
  · intro hpath
    cases hout : (getOrCreateThread base.session_id true channel now createPost store).outcome with
    | error e => simp [processEvent, eventBase, hout]
    | ok ts => simp [processEvent, eventBase, hookEventName, hout, hpath]
  · intro msg hmsg
    cases hout : (getOrCreateThread base.session_id true channel now createPost store).outcome with
    | error e => simp [processEvent, eventBase, hout] at hmsg
    | ok ts =>
      simp only [processEvent, eventBase, hout] at hmsg
      by_cases hcond : hookEventName (.stop base sha) = "Stop" ∧ base.transcript_path ≠ ""
      · rw [if_pos hcond] at hmsg
        cases hsum : getLatestAssistantSummary transcript with
        | none => rw [hsum] at hmsg; simp at hmsg
        | some summary =>
          rw [hsum] at hmsg
          by_cases htext : summary.text = ""
          · simp [htext] at hmsg
          · simp only [ne_eq, htext, not_false_eq_true, if_true, ite_true,
              List.cons.injEq, and_true] at hmsg
            exact ⟨summary, rfl, htext, hmsg.symm⟩
      · rw [if_neg hcond] at hmsg; simp at hmsg

/-- Witness for C3 (amended) at concrete events and a two-turn transcript. -/
theorem c3_stop_branch_posts_latest_only_witness :
    (processEvent exSubagentStopEvent "C1" 5 "tt" (.ok (some "111.222"))
      [exTurn1, exTurn2] [] []).stopPosts = [] ∧
    (processEvent (.stop ⟨"s1", "", "/w"⟩ none) "C1" 5 "tt" (.ok (some "111.222"))
      [exTurn1, exTurn2] [] []).stopPosts = [] ∧
    (∃ summary, getLatestAssistantSummary [exTurn1, exTurn2] = some summary ∧
      summary.text ≠ "" ∧
      formatAssistantResponseForSlack "tt" ⟨"world", none, [], none, none⟩ =
        formatAssistantResponseForSlack "tt" summary) := by
  have h := c3_stop_branch_posts_latest_only exBase none "C1" 5 "tt"
    (.ok (some "111.222")) [exTurn1, exTurn2] [] []
  have h2 := c3_stop_branch_posts_latest_only ⟨"s1", "", "/w"⟩ none "C1" 5 "tt"
    (.ok (some "111.222")) [exTurn1, exTurn2] [] []
  exact ⟨h.1, h2.2.2.2.1 rfl,
    h.2.2.2.2 (formatAssistantResponseForSlack "tt" ⟨"world", none, [], none, none⟩)
      (by decide)⟩

/-- Counterexample to claim C4: a validated PreToolUse event is formatted
(by the default generic branch) and the pipeline posts one primary message
for it — not zero messaging-client calls. -/
theorem c4_counterexample :
    parseHookEvent (Json.obj [("session_id", .str "s1"),
      ("transcript_path", .str "/tmp/t.jsonl"), ("cwd", .str "/w"),
      ("hook_event_name", .str "PreToolUse"), ("tool_name", .str "Bash"),
      ("tool_input", .obj [("command", .str "ls")])]) = some exPreToolUseEvent ∧
    (formatHookEventForSlack "tt" exPreToolUseEvent).blocks =
      [.section ("*PreToolUse* at " ++ "tt"), .divider] ∧
    (processEvent exPreToolUseEvent "C1" 5 "tt" (.ok (some "111.222"))
      [] [] []).primaryPosts = 1 := by
  refine ⟨rfl, by decide, by decide⟩

/-- Claim C4 (amended): a PreToolUse event that passes validation is not
excluded: it is formatted through the formatter's default generic branch
(fallback text "PreToolUse event", a header-style section and a divider)
and, whenever thread resolution succeeds, the pipeline posts exactly one
primary message for it; it triggers no transcript post. -/
theorem c4_pre_tool_use_posted_generically (base : HookBase) (tn : String)
    (ti : List (String × Json)) (time channel : String) (now : Nat)
    (createPost : PostResult) (transcript : List TranscriptMessage) (store : Store)
    (sent : List TranscriptMessage) (ts : String)
    (h : (getOrCreateThread base.session_id true channel now createPost store).outcome =
      .ok ts) :
    formatHookEventForSlack time (.preToolUse base tn ti) =
      ⟨"PreToolUse event", [.section ("*PreToolUse* at " ++ time), .divider]⟩ ∧
    (processEvent (.preToolUse base tn ti) channel now time createPost
      transcript store sent).primaryPosts = 1 ∧
    (processEvent (.preToolUse base tn ti) channel now time createPost
      transcript store sent).stopPosts = [] := by
  refine ⟨rfl, ?_, ?_⟩ <;> simp [processEvent, eventBase, hookEventName, h]

/-- Witness for C4 (amended) at a concrete PreToolUse event. -/
theorem c4_pre_tool_use_posted_generically_witness :
    (getOrCreateThread exBase.session_id true "C1" 5 (.ok (some "111.222")) []).outcome =
      .ok "111.222" ∧
    formatHookEventForSlack "tt" (.preToolUse exBase "Bash" [("command", .str "ls")]) =
      ⟨"PreToolUse event", [.section ("*PreToolUse* at " ++ "tt"), .divider]⟩ ∧
    (processEvent (.preToolUse exBase "Bash" [("command", .str "ls")]) "C1" 5 "tt"
      (.ok (some "111.222")) [] [] []).primaryPosts = 1 ∧
    (processEvent (.preToolUse exBase "Bash" [("command", .str "ls")]) "C1" 5 "tt"
      (.ok (some "111.222")) [] [] []).stopPosts = [] := by
  have h := c4_pre_tool_use_posted_generically exBase "Bash" [("command", .str "ls")]
    "tt" "C1" 5 (.ok (some "111.222")) [] [] [] "111.222" rfl
  exact ⟨rfl, h.1, h.2.1, h.2.2⟩

/-- Looking up any key other than a freshly appended one is unchanged. -/
theorem getField_append_fresh (fields : List (String × Json)) (k : String) (v : Json)
    (key : String) (hne : key ≠ k) :
    getField (fields ++ [(k, v)]) key = getField fields key := by
  induction fields with
  | nil => simp [getField, Ne.symm hne]
  | cons kv rest ih =>
    obtain ⟨k', v'⟩ := kv
    by_cases h : k' = key
    · simp [getField, h]
    · simp [getField, h, ih]

/-- `parseFields` reads only the keys declared by some member schema. -/
theorem parseFields_congr (g₁ g₂ : String → Option Json)
    (h : ∀ key ∈ schemaKeys, g₁ key = g₂ key) : parseFields g₁ = parseFields g₂ := by
  have e₁ := h "hook_event_name" (by decide)
  have e₂ := h "session_id" (by decide)
  have e₃ := h "transcript_path" (by decide)
  have e₄ := h "cwd" (by decide)
  have e₅ := h "prompt" (by decide)
  have e₆ := h "tool_name" (by decide)
  have e₇ := h "tool_input" (by decide)
  have e₈ := h "tool_response" (by decide)
  have e₉ := h "stop_hook_active" (by decide)
  have e₁₀ := h "message" (by decide)
  have e₁₁ := h "trigger" (by decide)
  have e₁₂ := h "custom_instructions" (by decide)
  simp only [parseFields, getStr, getObjFields, getOptBool, getTrigger,
    e₁, e₂, e₃, e₄, e₅, e₆, e₇, e₈, e₉, e₁₀, e₁₁, e₁₂]

/-- Counterexample to claim C5: an object carrying every UserPromptSubmit
field plus the unrecognized field `"extra"` is not rejected — it parses
successfully (zod `z.object` strips unknown keys rather than rejecting
them). -/
theorem c5_counterexample :
    parseHookEvent exUpsExtraObj = some exPromptEvent ∧
    parseHookEvent exUpsExtraObj ≠ none := by
  have h : parseHookEvent exUpsExtraObj = some exPromptEvent := rfl
  refine ⟨h, fun hnone => ?_⟩
  rw [h] at hnone
  exact Option.noConfusion hnone

/-- Claim C5 (amended): the member schemas are non-strict `z.object`s, so an
inbound object that parses to an event still parses to the same event after
any field with an unrecognized key is appended: unknown extra fields are
silently stripped, not rejected. -/
theorem c5_extra_fields_stripped (fields : List (String × Json)) (k : String) (v : Json)
    (e : HookEvent) (hk : k ∉ schemaKeys)
    (hp : parseHookEvent (.obj fields) = some e) :
    parseHookEvent (.obj (fields ++ [(k, v)])) = some e := by
  have hcong : parseFields (getField (fields ++ [(k, v)])) = parseFields (getField fields) :=
    parseFields_congr _ _ fun key hkey =>
      getField_append_fresh fields k v key (fun he => hk (he ▸ hkey))
  show parseFields (getField (fields ++ [(k, v)])) = some e
  rw [hcong]
  exact hp

/-- Witness for C5 (amended): a Stop object still parses, to the same
event, after an extra boolean field is appended. -/
theorem c5_extra_fields_stripped_witness :
    ("extra" : String) ∉ schemaKeys ∧
    parseHookEvent (.obj exStopFields) = some exStopParsed ∧
    parseHookEvent (.obj (exStopFields ++ [("extra", .bool true)])) = some exStopParsed := by
  exact ⟨by decide, rfl,
    c5_extra_fields_stripped exStopFields "extra" (.bool true) exStopParsed (by decide) rfl⟩

end Ccth
